import Mathlib

/-!
Verification development for the checkmeta mercurial extension
(`checkmeta.py`).  The Python source is shallowly embedded: Python byte
strings (`str` in Python 2) are represented as `List Nat` (byte values),
Python unicode strings as `List Nat` (codepoints), text handled by the
configuration parser as Lean `String`.  Fallible Python code (raised
exceptions) is represented with `Except PyError`.  The host `ui.warn`
sink is modelled by accumulating `CfgWarning` values.
-/

/-- Python exceptions that the embedded code can raise.  `keyError` carries
the argument of the raised `KeyError`, `lookupError` the unknown codec
name. -/
inductive PyError : Type where
  | unicodeDecodeError : PyError
  | keyError : String → PyError
  | lookupError : String → PyError
  | indexError : PyError
  | typeError : PyError
deriving DecidableEq, Repr

/-- Failure reasons returned by the check functions.  The Python code
returns formatted strings; only their identity matters to the claims, so
they are modelled as constructors. -/
inductive Reason : Type where
  | invalidEncoding : Reason
  | nonPrintableText : Reason
  | nonPrintableText8 : Reason
  | bmpNeedsEncoding : Reason
  | bmpNeedsUnicode : Reason
  | outsideBMP : Reason
  | bomNeedsEncoding : Reason
  | bomNeedsUnicode : Reason
  | invalidOrMissingBOM : Reason
  | invalid32BitBOM : Reason
  | unexpectedBOM : Reason
deriving DecidableEq, Repr

/-- Warnings emitted through `hgUi.warn`, carrying the offending token. -/
inductive CfgWarning : Type where
  | invalidSyntax : String → CfgWarning
  | malformedCheckLine : String → CfgWarning
  | unknownTestFunction : String → CfgWarning
deriving DecidableEq, Repr

/-- ASCII lower-casing, modelling Python `str.lower` on the ASCII strings
used by the configuration language. -/
def pyLowerChar (c : Char) : Char :=
  if 'A' ≤ c ∧ c ≤ 'Z' then Char.ofNat (c.toNat + 32) else c

/-- Python `str.lower`. -/
def pyLower (s : String) : String := String.mk (s.toList.map pyLowerChar)

/-- Python `str.startswith`. -/
def strStarts (s p : String) : Bool := List.isPrefixOf p.toList s.toList

/-- Python whitespace characters (the `\s` class / `str.strip` default). -/
def isPySpace (c : Char) : Bool :=
  c = ' ' ∨ c = '\t' ∨ c = '\n' ∨ c = Char.ofNat 11 ∨ c = Char.ofNat 12 ∨ c = '\r'

/-- Strip characters satisfying `p` from both ends of a character list. -/
def stripEnds (p : Char → Bool) (cs : List Char) : List Char :=
  ((cs.dropWhile p).reverse.dropWhile p).reverse

/-- Python `str.strip()` (no argument: strips whitespace). -/
def pyStrip (s : String) : String := String.mk (stripEnds isPySpace s.toList)

/-- Python `str.rstrip()`. -/
def pyRstrip (cs : List Char) : List Char := (cs.reverse.dropWhile isPySpace).reverse

/-- Python `'-_'` deletion used by `bomTest.normalizeEncoding`:
`enc.lower().translate(None, '-_')`. -/
def normalizeEncoding (enc : String) : String :=
  String.mk ((enc.toList.map pyLowerChar).filter (fun c => ¬ (c = '-' ∨ c = '_')))

/-- First-match lookup in an association list with string keys, modelling
Python `d[k]` / `k in d`. -/
def dictGet {β : Type} (d : List (String × β)) (k : String) : Option β :=
  match d with
  | [] => none
  | (k', v) :: rest => if k' = k then some v else dictGet rest k

/-- Python (ordered) dict assignment `d[k] = v`: replaces the value in
place when the key is present (iteration position is kept), appends
otherwise.  This is the behaviour of `OrderedDict.__setitem__`. -/
def odInsert {β : Type} (d : List (String × β)) (k : String) (v : β) : List (String × β) :=
  if d.any (fun e => e.1 = k) then d.map (fun e => if e.1 = k then (k, v) else e)
  else d ++ [(k, v)]

/-- Python `OrderedDict.update`: repeated assignment of the entries of the
second dict into the first, in iteration order. -/
def odUpdate {β : Type} (d other : List (String × β)) : List (String × β) :=
  other.foldl (fun acc e => odInsert acc e.1 e.2) d

-- ### Codecs (external collaborator)

/-- The codecs this development exercises.  The Python `codecs` registry is
an external collaborator; it is modelled restricted to the encodings the
configuration language and the claims use. -/
inductive Codec : Type where
  | utf8 : Codec
  | ascii : Codec
  | latin1 : Codec
deriving DecidableEq, Repr

/-- Python codec-name normalization (lower case, `-` and space to `_`). -/
def pyCodecNorm (s : String) : String :=
  String.mk (s.toList.map (fun c => if c = '-' ∨ c = ' ' then '_' else pyLowerChar c))

/-- Codec registry lookup, modelling `codecs.lookup` restricted to the
aliases used here.  Unknown names give `none` (Python raises
`LookupError`). -/
def lookupCodec (enc : String) : Option Codec :=
  let n := pyCodecNorm enc
  if n ∈ ["utf_8", "utf8", "u8", "utf"] then some .utf8
  else if n ∈ ["ascii", "us_ascii", "646"] then some .ascii
  else if n ∈ ["latin_1", "latin1", "latin", "l1", "iso_8859_1", "iso8859_1", "8859", "cp819"] then some .latin1
  else none

/-- Continuation byte test for UTF-8. -/
def isContByte (b : Nat) : Bool := 0x80 ≤ b ∧ b ≤ 0xBF

/-- Second-byte constraint of a three-byte UTF-8 sequence as accepted by
the Python 2 decoder (surrogates `ED A0..BF` are accepted). -/
def utf8Second3 (b1 b2 : Nat) : Bool :=
  if b1 = 0xE0 then 0xA0 ≤ b2 ∧ b2 ≤ 0xBF else isContByte b2

/-- Second-byte constraint of a four-byte UTF-8 sequence (codepoints up to
0x10FFFF, no overlong forms). -/
def utf8Second4 (b1 b2 : Nat) : Bool :=
  if b1 = 0xF0 then 0x90 ≤ b2 ∧ b2 ≤ 0xBF
  else if b1 = 0xF4 then 0x80 ≤ b2 ∧ b2 ≤ 0x8F
  else isContByte b2

/-- UTF-8 decoding as performed by the Python 2 `utf-8` codec: rejects
overlong forms and codepoints beyond 0x10FFFF, accepts encoded
surrogates.  `none` models a raised `UnicodeDecodeError`. -/
def utf8Decode : List Nat → Option (List Nat)
  | [] => some []
  | b1 :: t1 =>
    if b1 < 0x80 then
      match utf8Decode t1 with
      | some cps => some (b1 :: cps)
      | none => none
    else if 0xC2 ≤ b1 ∧ b1 ≤ 0xDF then
      match t1 with
      | b2 :: t2 =>
        if isContByte b2 then
          match utf8Decode t2 with
          | some cps => some (((b1 - 0xC0) * 0x40 + (b2 - 0x80)) :: cps)
          | none => none
        else none
      | [] => none
    else if 0xE0 ≤ b1 ∧ b1 ≤ 0xEF then
      match t1 with
      | b2 :: b3 :: t3 =>
        if utf8Second3 b1 b2 ∧ isContByte b3 then
          match utf8Decode t3 with
          | some cps => some (((b1 - 0xE0) * 0x1000 + (b2 - 0x80) * 0x40 + (b3 - 0x80)) :: cps)
          | none => none
        else none
      | _ => none
    else if 0xF0 ≤ b1 ∧ b1 ≤ 0xF4 then
      match t1 with
      | b2 :: b3 :: b4 :: t4 =>
        if utf8Second4 b1 b2 ∧ isContByte b3 ∧ isContByte b4 then
          match utf8Decode t4 with
          | some cps => some (((b1 - 0xF0) * 0x40000 + (b2 - 0x80) * 0x1000 + (b3 - 0x80) * 0x40 + (b4 - 0x80)) :: cps)
          | none => none
        else none
      | _ => none
    else none

/-- Decoding with a concrete codec: `none` models `UnicodeDecodeError`. -/
def codecDecode (c : Codec) (content : List Nat) : Option (List Nat) :=
  match c with
  | .utf8 => utf8Decode content
  | .ascii => if content.all (fun b => b ≤ 0x7F) then some content else none
  | .latin1 => some content

/-- Python `content.decode(enc)` / `codecs.decode(content, enc)`:
unknown codec raises `LookupError`, a decode failure raises
`UnicodeDecodeError` (a `ValueError`). -/
def pyDecode (enc : String) (content : List Nat) : Except PyError (List Nat) :=
  match lookupCodec enc with
  | none => .error (.lookupError enc)
  | some c =>
    match codecDecode c content with
    | none => .error .unicodeDecodeError
    | some u => .ok u

-- ### Check library (checkmeta.py, region "Actual tests")

/-- The per-file assertion dictionary: check name to argument tuple. -/
abbrev AssertionMap : Type := List (String × List String)

deriving instance DecidableEq for Except

/-- `encodingTest` (checkmeta.py lines 400-417): decodes with the named
codec unless it is `binary`; a `ValueError` (decode failure) is caught and
reported, any other exception (such as `LookupError` for an unknown
codec) propagates. -/
def encodingTest (encoding : String) (fileContent : List Nat) (_asserted : AssertionMap) :
    Except PyError (Option Reason) :=
  if encoding = "binary" then .ok none
  else
    match pyDecode encoding fileContent with
    | .error .unicodeDecodeError => .ok (some .invalidEncoding)
    | .error e => .error e
    | .ok _ => .ok none

/-- Printability of a decoded codepoint (checkmeta.py `isPrintableUnicode`). -/
def isPrintableUnicode (o : Nat) : Bool :=
  o = 0x09 ∨ o = 0x0a ∨ o = 0x0d ∨ (0x20 ≤ o ∧ o < 0x7f) ∨ o > 0x9f

/-- Printability of a raw byte (checkmeta.py `isPrintable8bit`). -/
def isPrintable8bit (b : Nat) : Bool :=
  0x20 ≤ b ∨ b = 13 ∨ b = 10 ∨ b = 9

/-- `mimeTest` (checkmeta.py lines 420-460).  Note that the decode of the
file content with the asserted encoding is not wrapped in a handler: a
decode failure propagates as an exception. -/
def mimeTest (mimeType : String) (fileContent : List Nat) (asserted : AssertionMap) :
    Except PyError (Option Reason) :=
  match dictGet asserted "encoding" with
  | none => .ok none
  | some args =>
    if strStarts mimeType "text" then
      match args.head? with
      | none => .error .indexError
      | some e0 =>
        let encoding := pyLower e0
        if strStarts encoding "utf" then
          match pyDecode encoding fileContent with
          | .error e => .error e
          | .ok chars =>
            .ok (if chars.all isPrintableUnicode then none else some .nonPrintableText)
        else if encoding = "ascii" ∨ strStarts encoding "latin" ∨ strStarts encoding "iso-8859"
            ∨ strStarts encoding "iso8859" ∨ strStarts encoding "cp" then
          .ok (if fileContent.all isPrintable8bit then none else some .nonPrintableText8)
        else .ok none
    else .ok none

/-- `bmpTest` (checkmeta.py lines 463-490).  As with `mimeTest`, the
decode is unprotected. -/
def bmpTest (fileContent : List Nat) (asserted : AssertionMap) :
    Except PyError (Option Reason) :=
  match dictGet asserted "encoding" with
  | none => .ok (some .bmpNeedsEncoding)
  | some args =>
    match args.head? with
    | none => .error .indexError
    | some e0 =>
      let encoding := pyLower e0
      if strStarts encoding "utf" = false then .ok (some .bmpNeedsUnicode)
      else
        match pyDecode encoding fileContent with
        | .error e => .error e
        | .ok converted =>
          .ok (if converted.all (fun o => o ≤ 0xffff) then none else some .outsideBMP)

/-- Tokens recognized as "true" by `bomTest`. -/
def trueTokens : List String := ["true", "yes", "y", "on", "1"]

/-- `codecs.BOM_UTF8`. -/
def bomUTF8 : List Nat := [0xEF, 0xBB, 0xBF]

/-- `codecs.BOM_UTF16_LE`. -/
def bomUTF16LE : List Nat := [0xFF, 0xFE]

/-- `codecs.BOM_UTF16_BE`. -/
def bomUTF16BE : List Nat := [0xFE, 0xFF]

/-- `codecs.BOM_UTF32_LE`. -/
def bomUTF32LE : List Nat := [0xFF, 0xFE, 0x00, 0x00]

/-- `codecs.BOM_UTF32_BE`. -/
def bomUTF32BE : List Nat := [0x00, 0x00, 0xFE, 0xFF]

/-- `hasBom` from `bomTest`: the data starts with one of the marks. -/
def hasBom (data : List Nat) (boms : List (List Nat)) : Bool :=
  boms.any (fun bom => data.take bom.length == bom)

/-- The literal dictionary of expected BOMs inside `bomTest`
(checkmeta.py lines 524-533); `none` means the subscript raises
`KeyError`. -/
def bomTable (enc : String) : Option (List (List Nat)) :=
  if enc = "utf8" then some [bomUTF8]
  else if enc = "utf8sig" then some [bomUTF8]
  else if enc = "utf16" then some [bomUTF16LE, bomUTF16BE]
  else if enc = "utf16be" then some [bomUTF16BE]
  else if enc = "utf16le" then some [bomUTF16LE]
  else if enc = "utf32" then some [bomUTF32LE, bomUTF32BE]
  else if enc = "utf32be" then some [bomUTF32BE]
  else if enc = "utf32le" then some [bomUTF32LE]
  else none

/-- `bomTest` (checkmeta.py lines 493-550). -/
def bomTest (bomExpected : String) (fileContent : List Nat) (asserted : AssertionMap) :
    Except PyError (Option Reason) :=
  if pyLower bomExpected ∈ trueTokens then
    match dictGet asserted "encoding" with
    | none => .ok (some .bomNeedsEncoding)
    | some args =>
      match args.head? with
      | none => .error .indexError
      | some e0 =>
        if strStarts (normalizeEncoding (pyLower e0)) "utf" = false then
          .ok (some .bomNeedsUnicode)
        else
          match bomTable (normalizeEncoding (pyLower e0)) with
          | none => .error (.keyError (normalizeEncoding (pyLower e0)))
          | some expectedBoms =>
            if hasBom fileContent expectedBoms = false then .ok (some .invalidOrMissingBOM)
            else if strStarts (normalizeEncoding (pyLower e0)) "utf16"
                && hasBom fileContent [bomUTF32LE, bomUTF32BE] then
              .ok (some .invalid32BitBOM)
            else .ok none
  else
    if hasBom fileContent [bomUTF8, bomUTF16LE, bomUTF16BE, bomUTF32LE, bomUTF32BE] then
      .ok (some .unexpectedBOM)
    else .ok none

-- ### Test invocation engine (checkmeta.py, region "Test invocation")

/-- A resolved check invocation: the check name together with the
positional string arguments bound by `CheckParser.__makeTest`
(`functools.partial(func, *parameters)`).  The bound arguments are the
`.args` the engine publishes in the assertion map. -/
structure CheckInvocation : Type where
  name : String
  params : List String
deriving DecidableEq, Repr

/-- Dispatch of `CheckParser.funcMap` plus the call of the bound functor
with `(fileData, asserted)`.  A wrong number of bound arguments raises
`TypeError` when the functor is called. -/
def applyCheckFun (name : String) (params : List String) (content : List Nat)
    (asserted : AssertionMap) : Except PyError (Option Reason) :=
  match name, params with
  | "encoding", [e] => encodingTest e content asserted
  | "mimetype", [m] => mimeTest m content asserted
  | "bmp", [] => bmpTest content asserted
  | "bom", [b] => bomTest b content asserted
  | _, _ => .error .typeError

/-- Run one resolved check invocation on file content. -/
def runCheck (t : CheckInvocation) (content : List Nat) (asserted : AssertionMap) :
    Except PyError (Option Reason) :=
  applyCheckFun t.name t.params content asserted

/-- The dictionary comprehension at the top of `__applyTestSet`
(checkmeta.py lines 299-302): the arguments of ALL tests of the list,
keyed by check name (later duplicates of a name overwrite earlier ones). -/
def buildAsserted (tests : List CheckInvocation) : AssertionMap :=
  tests.foldl (fun d t => odInsert d t.name t.params) []

/-- The loop of `__applyTestSet` (checkmeta.py lines 304-313): run the
tests in order against a fixed assertion map, stop at the first failure,
return the names of the checks that passed and the overall verdict. -/
def applyLoop (asserted : AssertionMap) (content : List Nat) :
    List CheckInvocation → List String → Except PyError (List String × Bool)
  | [], acc => .ok (acc, true)
  | t :: rest, acc =>
    match runCheck t content asserted with
    | .error e => .error e
    | .ok (some _) => .ok (acc, false)
    | .ok none => applyLoop asserted content rest (acc ++ [t.name])

/-- `__applyTestSet` (checkmeta.py lines 278-313): the assertion map is
built once from the whole test list and passed unchanged to every test. -/
def applyTestSet (tests : List CheckInvocation) (content : List Nat) :
    Except PyError (List String × Bool) :=
  applyLoop (buildAsserted tests) content tests []

/-- `runTests` (checkmeta.py lines 316-335): run the test set of the first
matcher accepting the file name; with no match the file trivially passes
with an empty check list. -/
def runTests (fileName : String) (patterns : List ((String → Bool) × List CheckInvocation))
    (content : List Nat) : Except PyError (List String × Bool) :=
  match patterns with
  | [] => .ok ([], true)
  | (m, tests) :: rest =>
    if m fileName then applyTestSet tests content
    else runTests fileName rest content

/-- The per-file loop of `checkhook` (checkmeta.py lines 377-389), with the
repository access abstracted into an explicit list of
(file name, content) pairs.  The `patterns` argument is the
matcher-to-checks mapping in the order in which `runTests` will iterate
it; at lines 370-373 the hook produces that mapping as a PLAIN Python 2.7
dict, whose iteration order is implementation-defined — see
`matchPatternsIterOrder` below for the model of that rebuild.
Returns `true` when the commit/push must be cancelled. -/
def checkhook (mandatory : List String)
    (patterns : List ((String → Bool) × List CheckInvocation)) :
    List (String × List Nat) → Except PyError Bool
  | [] => .ok false
  | (fileName, content) :: rest =>
    match runTests fileName patterns content with
    | .error e => .error e
    | .ok (checksRun, success) =>
      if success = false then .ok true
      else if mandatory.any (fun m => ! checksRun.contains m) then .ok true
      else checkhook mandatory patterns rest

/-- Lines 370-373 of `checkhook`: the ordered pattern table is rebuilt by
a PLAIN Python 2.7 dict comprehension — `matchPatterns` maps
`match.match(repo.root, ..., pattern)` to `check` for every table entry —
keyed by the compiled, identity-hashed `match.match` objects.  A plain
dict does not preserve insertion order: its iteration order is
implementation-defined hash order, about which the program guarantees
nothing beyond containing exactly the compiled entries.  The rebuild is
therefore modelled as a relation: `iterOrder` is a possible iteration
order of the rebuilt dict for the given table, with `compile` standing
for the external `match.match` pattern compilation. -/
def matchPatternsIterOrder (compile : String → String → Bool)
    (table : List (String × List CheckInvocation))
    (iterOrder : List ((String → Bool) × List CheckInvocation)) : Prop :=
  List.Perm iterOrder (table.map (fun e => (compile e.1, e.2)))


-- ### Check line parsing (CheckParser, checkmeta.py lines 127-199)

/-- Length of `List.dropWhile` never exceeds the input's length. -/
theorem len_dropWhile_le (p : Char → Bool) (l : List Char) :
    (l.dropWhile p).length ≤ l.length := by
  induction l with
  | nil => simp [List.dropWhile]
  | cons c t ih =>
    by_cases h : p c
    · simp [List.dropWhile, h]
      omega
    · simp [List.dropWhile, h]

/-- The tail of one match attempt of `\s*([^(]+)\(([^)]*)\)\s*`: given the
matched name group and the characters following the literal `(`, match
the greedy `[^)]*`, the literal `)` and the trailing `\s*`, returning the
two groups and the remaining characters after the match. -/
def charMatchTail (nameChars after : List Char) : Option (String × String × List Char) :=
  match after.dropWhile (fun c => c ≠ ')') with
  | ')' :: r4 =>
    some (String.mk nameChars, String.mk (after.takeWhile (fun c => c ≠ ')')),
          r4.dropWhile isPySpace)
  | _ => none

/-- The `\s*([^(]+)` part of a match attempt: the greedy whitespace run
followed by the greedy non-`(` run.  When the non-`(` run after the
whitespace would be empty, the greedy `\s*` backtracks by one character,
so the name group becomes that single whitespace character. -/
def charMatchName (cs : List Char) : Option (List Char) :=
  if (cs.dropWhile isPySpace).takeWhile (fun c => c ≠ '(') = [] then
    (cs.takeWhile isPySpace).getLast?.map (fun c => [c])
  else some ((cs.dropWhile isPySpace).takeWhile (fun c => c ≠ '('))

/-- One match attempt of the regular expression
`\s*([^(]+)\(([^)]*)\)\s*` at the head of the character list, returning
the two groups and the remaining characters after the match. -/
def charMatchAt (cs : List Char) : Option (String × String × List Char) :=
  match charMatchName cs with
  | none => none
  | some nameChars =>
    match (cs.dropWhile isPySpace).dropWhile (fun c => c ≠ '(') with
    | '(' :: after => charMatchTail nameChars after
    | _ => none

/-- A successful tail match stays within the characters after `(`. -/
theorem charMatchTail_length_lt {nameChars after : List Char} {nm args : String}
    {rest : List Char} (h : charMatchTail nameChars after = some (nm, args, rest)) :
    rest.length < after.length + 1 := by
  unfold charMatchTail at h
  split at h
  · rename_i r4 heq
    simp only [Option.some.injEq, Prod.mk.injEq] at h
    have h1 : (r4.dropWhile isPySpace).length ≤ r4.length := len_dropWhile_le _ _
    have h2 : ((')' : Char) :: r4).length ≤ after.length := by
      rw [← heq]; exact len_dropWhile_le _ _
    have hrest : rest = r4.dropWhile isPySpace := h.2.2.symm
    subst hrest
    simp at h2
    omega
  · exact absurd h (by simp)

/-- A successful match consumes at least one character. -/
theorem charMatchAt_length_lt {cs : List Char} {nm args : String} {rest : List Char}
    (h : charMatchAt cs = some (nm, args, rest)) : rest.length < cs.length := by
  unfold charMatchAt at h
  split at h
  · exact absurd h (by simp)
  · split at h
    · rename_i after heq
      have h1 : (('(' : Char) :: after).length ≤ (cs.dropWhile isPySpace).length := by
        rw [← heq]; exact len_dropWhile_le _ _
      have h2 : (cs.dropWhile isPySpace).length ≤ cs.length := len_dropWhile_le _ _
      have h3 := charMatchTail_length_lt h
      simp at h1
      omega
    · exact absurd h (by simp)

/-- Fuelled scan of `re.findall` for the check-line regular expression:
collect non-overlapping matches, advancing one character when no match
starts at the current position.  The fuel argument only serves structural
termination; `charFindallAux_fuel` shows any fuel above the input length
gives the same result. -/
def charFindallAux : Nat → List Char → List (String × String)
  | 0, _ => []
  | fuel + 1, cs =>
    match charMatchAt cs with
    | some (nm, args, rest) => (nm, args) :: charFindallAux fuel rest
    | none =>
      match cs with
      | [] => []
      | _ :: t => charFindallAux fuel t

/-- The fuel is irrelevant as soon as it exceeds the input length. -/
theorem charFindallAux_fuel (fuel₁ fuel₂ : Nat) (cs : List Char)
    (h₁ : cs.length < fuel₁) (h₂ : cs.length < fuel₂) :
    charFindallAux fuel₁ cs = charFindallAux fuel₂ cs := by
  induction fuel₁ using Nat.strong_induction_on generalizing fuel₂ cs with
  | _ fuel₁ ih =>
    match fuel₁, fuel₂ with
    | f₁ + 1, f₂ + 1 =>
      simp only [charFindallAux]
      cases hm : charMatchAt cs with
      | some v =>
        obtain ⟨nm, args, rest⟩ := v
        have hlt := charMatchAt_length_lt hm
        simp only [List.cons.injEq, true_and]
        exact ih f₁ (Nat.lt_succ_self _) f₂ rest (by omega) (by omega)
      | none =>
        cases cs with
        | nil => rfl
        | cons c t =>
          simp only [List.length_cons] at h₁ h₂
          exact ih f₁ (Nat.lt_succ_self _) f₂ t (by omega) (by omega)

/-- `self.__lineRegEx.findall(line)` of `CheckParser`. -/
def checkFindall (line : String) : List (String × String) :=
  charFindallAux (line.toList.length + 1) line.toList

/-- Split a character list at a separator character, Python
`str.split(sep)` semantics (an empty input gives one empty piece). -/
def charSplit (sep : Char) : List Char → List (List Char)
  | [] => [[]]
  | c :: rest =>
    if c = sep then [] :: charSplit sep rest
    else
      match charSplit sep rest with
      | [] => [[c]]
      | g :: gs => (c :: g) :: gs

/-- The quote characters stripped from check arguments
(`param.strip('\x27"')`). -/
def quoteChars : List Char := [Char.ofNat 0x27, Char.ofNat 0x22]

/-- Parameter decoding of `CheckParser.__call__` (checkmeta.py lines
191-193): split the argument group at commas, keep non-empty pieces,
strip surrounding quotes. -/
def parseParams (argStr : String) : List String :=
  ((charSplit ',' argStr.toList).filter (fun p => p ≠ [])).map
    (fun p => String.mk (stripEnds (fun c => c ∈ quoteChars) p))

/-- The names `CheckParser.funcMap` knows. -/
def checkNames : List String := ["encoding", "mimetype", "bmp", "bom"]

/-- Build the resolved invocation for a recognized `name(args)` fragment. -/
def mkInvocation (m : String × String) : CheckInvocation :=
  ⟨m.1, parseParams m.2⟩

/-- The result-accumulating loop of `CheckParser.__call__` (lines
183-198): unknown names are skipped with a warning, recognized ones are
appended in order. -/
def parseChecksAcc (acc : List CheckInvocation × List CfgWarning) :
    List (String × String) → List CheckInvocation × List CfgWarning
  | [] => acc
  | m :: rest =>
    if checkNames.contains m.1 then parseChecksAcc (acc.1 ++ [mkInvocation m], acc.2) rest
    else parseChecksAcc (acc.1, acc.2 ++ [CfgWarning.unknownTestFunction m.1]) rest

/-- `CheckParser.__call__` (checkmeta.py lines 162-199) in resolved mode,
returning the parsed invocations together with the warnings written to
`hgUi`. -/
def parseChecks (line : String) : List CheckInvocation × List CfgWarning :=
  if pyStrip line = "" then ([], [])
  else
    match checkFindall line with
    | [] => ([], [CfgWarning.malformedCheckLine line])
    | ms => parseChecksAcc ([], []) ms


-- ### Expression parsing and the configuration reader
-- (ExpressionParser / readPatterns / readPatternFiles, checkmeta.py lines 60-275)

/-- Alphanumeric character class `[a-zA-Z0-9]` of the line regex. -/
def isAlnumChar (c : Char) : Bool :=
  ('a' ≤ c ∧ c ≤ 'z') ∨ ('A' ≤ c ∧ c ≤ 'Z') ∨ ('0' ≤ c ∧ c ≤ '9')

/-- Group 1 of `([a-zA-Z0-9]+:)?(.*)` without the trailing colon, together
with group 2: the maximal leading alphanumeric run when it is non-empty
and immediately followed by `:`. -/
def leadingAlnumColon (line : String) : Option (String × String) :=
  let run := line.toList.takeWhile isAlnumChar
  if run = [] then none
  else
    match line.toList.drop run.length with
    | ':' :: rest => some (String.mk run, String.mk rest)
    | _ => none

/-- `ExpressionParser.syntaxes()`: user-readable names to internal keys. -/
def synMap : List (String × String) := [("re", "relre"), ("regexp", "relre"), ("glob", "relglob")]

/-- The keys and values of `synMap` together (`self.__syntaxSpecs`). -/
def synSpecs : List String := ["re", "regexp", "glob", "relre", "relglob"]

/-- `ExpressionParser.__call__` (checkmeta.py lines 94-124): resolve a
pattern line against the ambient default syntax; an unrecognized syntax
override raises `KeyError`. -/
def parseExpression (line : String) (syn : String) : Except PyError String :=
  match leadingAlnumColon line with
  | none => .ok (syn ++ ":" ++ line)
  | some (run, rest) =>
    if run ∉ synSpecs then
      .error (.keyError ("invalid syntax \"" ++ run ++ ":\""))
    else
      match dictGet synMap run with
      | some v => .ok (v ++ ":" ++ rest)
      | none => .ok (run ++ ":" ++ rest)

/-- Comment removal of `readPatterns` (the substitution with
`((^|[^\\])(\\\\)*)#.*`): truncate at the first `#` that is preceded by
an even run of backslashes.  The boolean argument tracks whether the run
of backslashes immediately before the current position has even length. -/
def stripCommentAux : List Char → Bool → List Char
  | [], _ => []
  | c :: rest, evenRun =>
    if c = '#' then
      if evenRun then [] else c :: stripCommentAux rest true
    else if c = '\\' then c :: stripCommentAux rest (!evenRun)
    else c :: stripCommentAux rest true

/-- Python `line.replace("\\#", "#")`: left-to-right, non-overlapping. -/
def unescapeHash : List Char → List Char
  | '\\' :: '#' :: rest => '#' :: unescapeHash rest
  | c :: rest => c :: unescapeHash rest
  | [] => []

/-- The per-line preprocessing of `readPatterns` (checkmeta.py lines
231-233): strip the comment, un-escape hash symbols, strip trailing
whitespace. -/
def cleanLine (line : String) : String :=
  String.mk (pyRstrip (unescapeHash (stripCommentAux line.toList true)))

/-- The loop state of `readPatterns`: the ambient default syntax, the
pending check list, the ordered pattern table built so far and the
warnings written to `hgUi`. -/
structure RPState : Type where
  syn : String
  checks : List CheckInvocation
  table : List (String × List CheckInvocation)
  warns : List CfgWarning
deriving DecidableEq, Repr

/-- The state of `readPatterns` before any line is read: the default
syntax is `syntaxes['regexp'] = 'relre'` and the pending check list is
empty. -/
def initRP : RPState := ⟨"relre", [], [], []⟩

/-- One iteration of the `readPatterns` loop (checkmeta.py lines
230-246).  A `KeyError` from `parseExpression` on a pattern line is NOT
caught (only the `syntax:` lookup is inside a try block). -/
def procLine (st : RPState) (raw : String) : Except PyError RPState :=
  let line := cleanLine raw
  if line = "" then .ok st
  else if strStarts line "syntax:" then
    match dictGet synMap (pyStrip (String.mk (line.toList.drop 7))) with
    | some v => .ok { st with syn := v }
    | none =>
      .ok { st with warns := st.warns ++ [.invalidSyntax (pyStrip (String.mk (line.toList.drop 7)))] }
  else if strStarts line "checks:" then
    .ok { st with
          checks := (parseChecks (String.mk (line.toList.drop 7))).1,
          warns := st.warns ++ (parseChecks (String.mk (line.toList.drop 7))).2 }
  else
    match parseExpression line st.syn with
    | .error e => .error e
    | .ok key => .ok { st with table := odInsert st.table key st.checks }

/-- Fold of `procLine` over the input lines. -/
def procLines (st : RPState) : List String → Except PyError RPState
  | [] => .ok st
  | l :: ls =>
    match procLine st l with
    | .error e => .error e
    | .ok st' => procLines st' ls

/-- `readPatterns` (checkmeta.py lines 202-248) over an iterable of input
lines, with `decodeChecks=True`. -/
def readPatterns (lines : List String) : Except PyError RPState :=
  procLines initRP lines

/-- The loop of `readPatternFiles` (checkmeta.py lines 251-275) over data
sources, each source given as its list of lines: each source is read by a
fresh `readPatterns` call and merged into the accumulated table with
`OrderedDict.update`. -/
def rpfLoop (acc : List (String × List CheckInvocation) × List CfgWarning) :
    List (List String) → Except PyError (List (String × List CheckInvocation) × List CfgWarning)
  | [] => .ok acc
  | d :: ds =>
    match readPatterns d with
    | .error e => .error e
    | .ok st => rpfLoop (odUpdate acc.1 st.table, acc.2 ++ st.warns) ds

/-- `readPatternFiles` (checkmeta.py lines 251-275), the sources already
split into lines. -/
def readPatternFiles (datas : List (List String)) :
    Except PyError (List (String × List CheckInvocation) × List CfgWarning) :=
  rpfLoop ([], []) datas


-- ### Reference runners written from the specification's wording

/-- Check-list runner following the specification's wording for the
assertion protocol: the assertion set is built incrementally as checks
pass, so before invoking check `i` it contains exactly the arguments of
checks `0..i-1`. -/
def applyPrefixLoop (content : List Nat) :
    AssertionMap → List CheckInvocation → List String → Except PyError (List String × Bool)
  | _, [], acc => .ok (acc, true)
  | asserted, t :: rest, acc =>
    match runCheck t content asserted with
    | .error e => .error e
    | .ok (some _) => .ok (acc, false)
    | .ok none => applyPrefixLoop content (odInsert asserted t.name t.params) rest (acc ++ [t.name])

/-- The check-list run under the specification's prefix-only assertion
protocol, starting from an empty assertion set. -/
def applyTestSetSpecPrefix (tests : List CheckInvocation) (content : List Nat) :
    Except PyError (List String × Bool) :=
  applyPrefixLoop content [] tests []

/-- Check-list runner in which every invocation receives the assertion
set built from the arguments of ALL checks of the list (the amended
protocol), recomputed at each step. -/
def applyFullLoop (allTests : List CheckInvocation) (content : List Nat) :
    List CheckInvocation → List String → Except PyError (List String × Bool)
  | [], acc => .ok (acc, true)
  | t :: rest, acc =>
    match runCheck t content (buildAsserted allTests) with
    | .error e => .error e
    | .ok (some _) => .ok (acc, false)
    | .ok none => applyFullLoop allTests content rest (acc ++ [t.name])

/-- The check-list run in which each check, including the first, sees the
arguments of every check of the list. -/
def applyTestSetFull (tests : List CheckInvocation) (content : List Nat) :
    Except PyError (List String × Bool) :=
  applyFullLoop tests content tests []

/-- The loop of `__applyTestSet` with a fixed assertion map agrees with
the runner that recomputes the full-list assertion map at each step. -/
theorem applyLoop_eq_applyFullLoop (allTests : List CheckInvocation) (content : List Nat)
    (todo : List CheckInvocation) (acc : List String) :
    applyLoop (buildAsserted allTests) content todo acc = applyFullLoop allTests content todo acc := by
  induction todo generalizing acc with
  | nil => rfl
  | cons t rest ih =>
    simp only [applyLoop, applyFullLoop]
    cases runCheck t content (buildAsserted allTests) with
    | error e => rfl
    | ok r =>
      cases r with
      | some _ => rfl
      | none => exact ih (acc ++ [t.name])

/-- C1 (counterexample): with the check list `bmp() encoding('utf-8')`
and empty file content, the first check (`bmp`) already sees the
`encoding` assertion contributed by the *later* check, so the run
succeeds, while under the claimed prefix-only protocol the first check
would see an empty assertion set and fail.  The claim that check `i`
sees exactly the arguments of checks `0..i-1` (the first check an empty
set) is therefore false for `__applyTestSet`. -/
theorem c1_counterexample :
    applyTestSet [⟨"bmp", []⟩, ⟨"encoding", ["utf-8"]⟩] [] = .ok (["bmp", "encoding"], true) ∧
    applyTestSetSpecPrefix [⟨"bmp", []⟩, ⟨"encoding", ["utf-8"]⟩] [] = .ok ([], false) ∧
    applyTestSet [⟨"bmp", []⟩, ⟨"encoding", ["utf-8"]⟩] [] ≠
      applyTestSetSpecPrefix [⟨"bmp", []⟩, ⟨"encoding", ["utf-8"]⟩] [] := by
  refine ⟨by decide, by decide, by decide⟩

/-- C1 (amended): during one file's check-list run the assertion set
visible to every check — the first one included — contains the arguments
of ALL checks of the list (duplicate names resolved to the last
occurrence), because `__applyTestSet` builds the map once from the whole
list before invoking any check: the run is equivalent to recomputing the
full-list assertion set at every invocation. -/
theorem c1_assertion_set_full_list :
    ∀ (tests : List CheckInvocation) (content : List Nat),
      applyTestSet tests content = applyTestSetFull tests content := by
  intro tests content
  exact applyLoop_eq_applyFullLoop tests content tests []

-- ### Claims C3 and C4

/-- A file name accepted by no matcher runs no checks and passes
trivially (`runTests`, checkmeta.py lines 330-335). -/
theorem runTests_no_match (fileName : String)
    (patterns : List ((String → Bool) × List CheckInvocation)) (content : List Nat)
    (h : ∀ p ∈ patterns, p.1 fileName = false) :
    runTests fileName patterns content = .ok ([], true) := by
  induction patterns with
  | nil => rfl
  | cons p rest ih =>
    obtain ⟨m, ts⟩ := p
    have hm : m fileName = false := h (m, ts) (List.mem_cons_self _ _)
    simp only [runTests, hm, Bool.false_eq_true, if_false]
    exact ih (fun q hq => h q (List.mem_cons_of_mem _ hq))

/-- C3 (counterexample): a batch whose single file matches no pattern
(the table is empty) passes verification with an empty check list, yet
with the non-empty mandatory set `{encoding}` the hook rejects the
batch — so a file without a matching pattern is NOT exempt from the
mandatory-check requirement. -/
theorem c3_counterexample :
    checkhook ["encoding"] [] [("foo.txt", [])] = .ok true ∧
    runTests "foo.txt" [] [] = .ok ([], true) := by
  refine ⟨by decide, by decide⟩

/-- C3 (amended): the mandatory-check subset condition is applied to
every file of the batch, files with no matching pattern included: such a
file runs an empty check list, so with a non-empty mandatory set the
batch can never be accepted. -/
theorem c3_mandatory_applies_to_unmatched :
    ∀ (mandatory : List String) (patterns : List ((String → Bool) × List CheckInvocation))
      (files : List (String × List Nat)) (fn : String) (content : List Nat),
      (fn, content) ∈ files →
      (∀ p ∈ patterns, p.1 fn = false) →
      mandatory ≠ [] →
      checkhook mandatory patterns files ≠ .ok false := by
  intro mandatory patterns files fn content hmem hnomatch hmand
  induction files with
  | nil => exact absurd hmem (List.not_mem_nil _)
  | cons f rest ih =>
    obtain ⟨g, d⟩ := f
    rcases List.mem_cons.mp hmem with heq | hmem'
    · obtain ⟨hg, hd⟩ := Prod.mk.injEq .. ▸ heq
      subst hg
      rw [show checkhook mandatory patterns ((fn, d) :: rest) =
          (match runTests fn patterns d with
           | .error e => .error e
           | .ok (checksRun, success) =>
             if success = false then .ok true
             else if mandatory.any (fun m => ! checksRun.contains m) then .ok true
             else checkhook mandatory patterns rest) from rfl]
      rw [runTests_no_match fn patterns d hnomatch]
      obtain ⟨m, ms⟩ := List.exists_cons_of_ne_nil hmand
      obtain ⟨ms', rfl⟩ := ms
      simp
    · rw [show checkhook mandatory patterns ((g, d) :: rest) =
          (match runTests g patterns d with
           | .error e => .error e
           | .ok (checksRun, success) =>
             if success = false then .ok true
             else if mandatory.any (fun m => ! checksRun.contains m) then .ok true
             else checkhook mandatory patterns rest) from rfl]
      cases hr : runTests g patterns d with
      | error e => simp
      | ok r =>
        obtain ⟨cr, succ⟩ := r
        dsimp only
        by_cases hs : succ = false
        · rw [if_pos hs]; simp
        · rw [if_neg hs]
          by_cases ha : mandatory.any (fun m => ! cr.contains m) = true
          · rw [if_pos ha]; simp
          · rw [if_neg ha]
            exact ih hmem'

/-- C3 (witness for the amended theorem). -/
theorem c3_witness : checkhook ["encoding"] [] [("bar.txt", [])] ≠ .ok false :=
  c3_mandatory_applies_to_unmatched ["encoding"] [] [("bar.txt", [])] "bar.txt" []
    (List.mem_singleton.mpr rfl) (fun p hp => absurd hp (List.not_mem_nil p)) (by decide)

/-- C4 (counterexample): a decode failure inside `mimeTest` or `bmpTest`
propagates as an exception (`UnicodeDecodeError`), it is not returned as
an error value: the byte `0x80` is invalid UTF-8, and both checks raise
on it when the assertion set holds `encoding = utf-8`. -/
theorem c4_counterexample :
    mimeTest "text/plain" [0x80] [("encoding", ["utf-8"])] = .error .unicodeDecodeError ∧
    bmpTest [0x80] [("encoding", ["utf-8"])] = .error .unicodeDecodeError := by
  refine ⟨by decide, by decide⟩

/-- C4 (amended): `encodingTest` catches decode failures and returns an
error value, but for every byte string that fails to decode as UTF-8,
`mimeTest` (for a `text/*` type) and `bmpTest` under a `utf-8` encoding
assertion propagate the `UnicodeDecodeError` instead of returning an
error value. -/
theorem c4_decode_failure_raises :
    ∀ (content : List Nat), utf8Decode content = none →
      mimeTest "text/plain" content [("encoding", ["utf-8"])] = .error .unicodeDecodeError ∧
      bmpTest content [("encoding", ["utf-8"])] = .error .unicodeDecodeError ∧
      encodingTest "utf-8" content [] = .ok (some .invalidEncoding) := by
  intro content h
  have hdec : pyDecode "utf-8" content = .error .unicodeDecodeError := by
    rw [show pyDecode "utf-8" content =
        (match codecDecode Codec.utf8 content with
         | none => .error .unicodeDecodeError
         | some u => .ok u) from rfl]
    rw [show codecDecode Codec.utf8 content = utf8Decode content from rfl, h]
  refine ⟨?_, ?_, ?_⟩
  · rw [show mimeTest "text/plain" content [("encoding", ["utf-8"])] =
        (match pyDecode "utf-8" content with
         | .error e => .error e
         | .ok chars =>
           .ok (if chars.all isPrintableUnicode then none else some .nonPrintableText)) from rfl]
    rw [hdec]
  · rw [show bmpTest content [("encoding", ["utf-8"])] =
        (match pyDecode "utf-8" content with
         | .error e => .error e
         | .ok converted =>
           .ok (if converted.all (fun o => o ≤ 0xffff) then none else some .outsideBMP)) from rfl]
    rw [hdec]
  · rw [show encodingTest "utf-8" content [] =
        (match pyDecode "utf-8" content with
         | .error .unicodeDecodeError => .ok (some .invalidEncoding)
         | .error e => .error e
         | .ok _ => .ok none) from rfl]
    rw [hdec]

/-- C4 (witness for the amended theorem, at the invalid byte `0x80`). -/
theorem c4_witness :
    mimeTest "text/plain" [0x80] [("encoding", ["utf-8"])] = .error .unicodeDecodeError ∧
    bmpTest [0x80] [("encoding", ["utf-8"])] = .error .unicodeDecodeError ∧
    encodingTest "utf-8" [0x80] [] = .ok (some .invalidEncoding) :=
  c4_decode_failure_raises [0x80] (by decide)

-- ### Claims C6 and C9

/-- Stub for the external `match.match` compilation of the two pattern
strings used in the C6 evaluation: `relglob:foo.h` matches exactly the
path `foo.h`, `relglob:*` matches every path. -/
def compileStub (pat : String) (s : String) : Bool :=
  if pat = "relglob:foo.h" then s == "foo.h" else true

/-- C6 (evaluation at the failing input): for the table declared as
`relglob:foo.h -> encoding(ascii)` then `relglob:* -> no checks`, BOTH
the declaration order and the swapped order are possible iteration
orders of the plain dict rebuilt at checkmeta.py lines 370-373 (the
rebuild guarantees nothing beyond a permutation of the compiled
entries), and `runTests` — which iterates the mapping exactly in the
order it is given (lines 330-332) — rejects the file `foo.h` with
content `0x80` under the first order but accepts it under the second.
The declaration-order first-match guarantee is therefore lost by the
hook, although the code documents hgignore-like first-match semantics. -/
theorem c6_iteration_order_flips_verdict :
    matchPatternsIterOrder compileStub
      [("relglob:foo.h", [⟨"encoding", ["ascii"]⟩]), ("relglob:*", [])]
      [(compileStub "relglob:foo.h", [⟨"encoding", ["ascii"]⟩]),
       (compileStub "relglob:*", [])] ∧
    matchPatternsIterOrder compileStub
      [("relglob:foo.h", [⟨"encoding", ["ascii"]⟩]), ("relglob:*", [])]
      [(compileStub "relglob:*", []),
       (compileStub "relglob:foo.h", [⟨"encoding", ["ascii"]⟩])] ∧
    runTests "foo.h"
      [(compileStub "relglob:foo.h", [⟨"encoding", ["ascii"]⟩]),
       (compileStub "relglob:*", [])] [0x80] = .ok ([], false) ∧
    runTests "foo.h"
      [(compileStub "relglob:*", []),
       (compileStub "relglob:foo.h", [⟨"encoding", ["ascii"]⟩])] [0x80] = .ok ([], true) := by
  refine ⟨List.Perm.refl _, List.Perm.swap _ _ _, by decide, by decide⟩

/-- C9: with a true-parsing expected argument and an encoding assertion
that normalizes to a `utf`-prefixed name outside the eight supported
variants, `bomTest` raises `KeyError` from the BOM-table subscript
instead of returning a result (checkmeta.py lines 515-536). -/
theorem c9_bom_table_keyerror :
    ∀ (bomArg enc : String) (content : List Nat),
      pyLower bomArg ∈ trueTokens →
      strStarts (normalizeEncoding (pyLower enc)) "utf" = true →
      bomTable (normalizeEncoding (pyLower enc)) = none →
      bomTest bomArg content [("encoding", [enc])] =
        .error (.keyError (normalizeEncoding (pyLower enc))) := by
  intro bomArg enc content h1 h2 h3
  unfold bomTest
  rw [if_pos h1]
  rw [show dictGet [("encoding", [enc])] "encoding" = some [enc] from rfl]
  dsimp only [List.head?]
  rw [if_neg (by simp [h2])]
  rw [h3]

/-- C9 (witness): the encoding assertion `utf7` normalizes to `utf7`,
starts with `utf`, is absent from the BOM table, and `bomTest` raises
`KeyError "utf7"`. -/
theorem c9_witness :
    bomTest "true" [1] [("encoding", ["utf7"])] = .error (.keyError "utf7") :=
  c9_bom_table_keyerror "true" "utf7" [1] (by decide) (by decide) (by decide)

-- ### Claim C7

/-- The eight encoding variants (in normalized form) the BOM table of
`bomTest` supports. -/
def bomVariants : List String :=
  ["utf8", "utf8sig", "utf16", "utf16be", "utf16le", "utf32", "utf32be", "utf32le"]

/-- The file's leading bytes match the given BOM sequence. -/
def leadingBytesMatch (content bom : List Nat) : Bool :=
  content.take bom.length == bom

/-- Pass condition of the BOM check written from the specification's
wording: the leading bytes match a mark listed for the exact encoding
variant (UTF-8 mark; UTF-16 generic accepts LE or BE; UTF-16LE/BE exact;
UTF-32 generic accepts LE or BE; UTF-32LE/BE exact), and for the UTF-16
variants the leading bytes do not also match a UTF-32 mark. -/
def bomSpecPass (enc : String) (content : List Nat) : Bool :=
  match enc with
  | "utf8" => leadingBytesMatch content bomUTF8
  | "utf8sig" => leadingBytesMatch content bomUTF8
  | "utf16" =>
    (leadingBytesMatch content bomUTF16LE || leadingBytesMatch content bomUTF16BE)
      && !(leadingBytesMatch content bomUTF32LE || leadingBytesMatch content bomUTF32BE)
  | "utf16be" =>
    leadingBytesMatch content bomUTF16BE
      && !(leadingBytesMatch content bomUTF32LE || leadingBytesMatch content bomUTF32BE)
  | "utf16le" =>
    leadingBytesMatch content bomUTF16LE
      && !(leadingBytesMatch content bomUTF32LE || leadingBytesMatch content bomUTF32BE)
  | "utf32" => leadingBytesMatch content bomUTF32LE || leadingBytesMatch content bomUTF32BE
  | "utf32be" => leadingBytesMatch content bomUTF32BE
  | "utf32le" => leadingBytesMatch content bomUTF32LE
  | _ => false

/-- The success condition of `bomTest` in the true-expected case with a
unicode encoding the BOM table knows: the leading bytes carry one of the
expected marks, and for `utf16*` variants no UTF-32 mark. -/
theorem bomTest_pass_iff (bomArg enc : String) (content : List Nat) (boms : List (List Nat))
    (h1 : pyLower bomArg ∈ trueTokens)
    (hutf : strStarts (normalizeEncoding (pyLower enc)) "utf" = true)
    (htab : bomTable (normalizeEncoding (pyLower enc)) = some boms) :
    bomTest bomArg content [("encoding", [enc])] = .ok none ↔
      (hasBom content boms = true ∧
       (strStarts (normalizeEncoding (pyLower enc)) "utf16" = true →
         hasBom content [bomUTF32LE, bomUTF32BE] = false)) := by
  unfold bomTest
  rw [if_pos h1]
  rw [show dictGet [("encoding", [enc])] "encoding" = some [enc] from rfl]
  dsimp only [List.head?]
  rw [if_neg (by simp [hutf])]
  rw [htab]
  dsimp only
  by_cases hb : hasBom content boms = false
  · rw [if_pos hb]
    constructor
    · intro h; exact absurd h (by simp)
    · intro h; rw [h.1] at hb; exact absurd hb (by simp)
  · rw [if_neg hb]
    have hb' : hasBom content boms = true := by
      cases h : hasBom content boms
      · exact absurd h hb
      · rfl
    by_cases h16 : (strStarts (normalizeEncoding (pyLower enc)) "utf16"
        && hasBom content [bomUTF32LE, bomUTF32BE]) = true
    · rw [if_pos h16]
      rw [Bool.and_eq_true] at h16
      constructor
      · intro h; exact absurd h (by simp)
      · intro h
        rw [h.2 h16.1] at h16
        exact absurd h16.2 (by simp)
    · rw [if_neg h16]
      rw [Bool.and_eq_true, not_and] at h16
      constructor
      · intro _
        refine ⟨hb', fun hs => ?_⟩
        cases h32 : hasBom content [bomUTF32LE, bomUTF32BE]
        · rfl
        · exact absurd h32 (h16 hs)
      · intro _; rfl

/-- C7: when the expected argument of `bomTest` parses as true and the
encoding assertion normalizes to one of the eight supported unicode
variants, the check passes exactly when the file's leading bytes match a
BOM listed for that exact variant and, for UTF-16 variants, do not also
match a UTF-32 BOM; the check fails with a reason when the encoding
assertion is missing or does not normalize to a `utf` name. -/
theorem c7_bom_exact_variant :
    (∀ (bomArg enc : String) (content : List Nat),
       pyLower bomArg ∈ trueTokens →
       normalizeEncoding (pyLower enc) ∈ bomVariants →
       ((bomTest bomArg content [("encoding", [enc])] = .ok none) ↔
         bomSpecPass (normalizeEncoding (pyLower enc)) content = true))
    ∧ (∀ (bomArg : String) (content : List Nat),
       pyLower bomArg ∈ trueTokens →
       bomTest bomArg content [] = .ok (some .bomNeedsEncoding))
    ∧ (∀ (bomArg enc : String) (content : List Nat),
       pyLower bomArg ∈ trueTokens →
       strStarts (normalizeEncoding (pyLower enc)) "utf" = false →
       bomTest bomArg content [("encoding", [enc])] = .ok (some .bomNeedsUnicode)) := by
  refine ⟨?_, ?_, ?_⟩
  · intro bomArg enc content h1 hv
    simp only [bomVariants, List.mem_cons, List.not_mem_nil, or_false] at hv
    rcases hv with h|h|h|h|h|h|h|h
    · rw [bomTest_pass_iff bomArg enc content [bomUTF8] h1 (by rw [h]; decide) (by rw [h]; rfl), h]
      rw [show strStarts "utf8" "utf16" = false from rfl]
      rw [show bomSpecPass "utf8" content = leadingBytesMatch content bomUTF8 from rfl]
      simp only [hasBom, List.any_cons, List.any_nil, Bool.or_false, leadingBytesMatch]
      simp
    · rw [bomTest_pass_iff bomArg enc content [bomUTF8] h1 (by rw [h]; decide) (by rw [h]; rfl), h]
      rw [show strStarts "utf8sig" "utf16" = false from rfl]
      rw [show bomSpecPass "utf8sig" content = leadingBytesMatch content bomUTF8 from rfl]
      simp only [hasBom, List.any_cons, List.any_nil, Bool.or_false, leadingBytesMatch]
      simp
    · rw [bomTest_pass_iff bomArg enc content [bomUTF16LE, bomUTF16BE] h1
          (by rw [h]; decide) (by rw [h]; rfl), h]
      rw [show strStarts "utf16" "utf16" = true from rfl]
      rw [show bomSpecPass "utf16" content =
          ((leadingBytesMatch content bomUTF16LE || leadingBytesMatch content bomUTF16BE)
            && !(leadingBytesMatch content bomUTF32LE || leadingBytesMatch content bomUTF32BE))
          from rfl]
      simp only [hasBom, List.any_cons, List.any_nil, Bool.or_false, leadingBytesMatch]
      cases hA : (content.take bomUTF16LE.length == bomUTF16LE) <;>
        cases hB : (content.take bomUTF16BE.length == bomUTF16BE) <;>
        cases hC : (content.take bomUTF32LE.length == bomUTF32LE) <;>
        cases hD : (content.take bomUTF32BE.length == bomUTF32BE) <;>
        simp
    · rw [bomTest_pass_iff bomArg enc content [bomUTF16BE] h1 (by rw [h]; decide) (by rw [h]; rfl), h]
      rw [show strStarts "utf16be" "utf16" = true from rfl]
      rw [show bomSpecPass "utf16be" content =
          (leadingBytesMatch content bomUTF16BE
            && !(leadingBytesMatch content bomUTF32LE || leadingBytesMatch content bomUTF32BE))
          from rfl]
      simp only [hasBom, List.any_cons, List.any_nil, Bool.or_false, leadingBytesMatch]
      cases hB : (content.take bomUTF16BE.length == bomUTF16BE) <;>
        cases hC : (content.take bomUTF32LE.length == bomUTF32LE) <;>
        cases hD : (content.take bomUTF32BE.length == bomUTF32BE) <;>
        simp
    · rw [bomTest_pass_iff bomArg enc content [bomUTF16LE] h1 (by rw [h]; decide) (by rw [h]; rfl), h]
      rw [show strStarts "utf16le" "utf16" = true from rfl]
      rw [show bomSpecPass "utf16le" content =
          (leadingBytesMatch content bomUTF16LE
            && !(leadingBytesMatch content bomUTF32LE || leadingBytesMatch content bomUTF32BE))
          from rfl]
      simp only [hasBom, List.any_cons, List.any_nil, Bool.or_false, leadingBytesMatch]
      cases hA : (content.take bomUTF16LE.length == bomUTF16LE) <;>
        cases hC : (content.take bomUTF32LE.length == bomUTF32LE) <;>
        cases hD : (content.take bomUTF32BE.length == bomUTF32BE) <;>
        simp
    · rw [bomTest_pass_iff bomArg enc content [bomUTF32LE, bomUTF32BE] h1
          (by rw [h]; decide) (by rw [h]; rfl), h]
      rw [show strStarts "utf32" "utf16" = false from rfl]
      rw [show bomSpecPass "utf32" content =
          (leadingBytesMatch content bomUTF32LE || leadingBytesMatch content bomUTF32BE)
          from rfl]
      simp only [hasBom, List.any_cons, List.any_nil, Bool.or_false, leadingBytesMatch]
      simp
    · rw [bomTest_pass_iff bomArg enc content [bomUTF32BE] h1 (by rw [h]; decide) (by rw [h]; rfl), h]
      rw [show strStarts "utf32be" "utf16" = false from rfl]
      rw [show bomSpecPass "utf32be" content = leadingBytesMatch content bomUTF32BE from rfl]
      simp only [hasBom, List.any_cons, List.any_nil, Bool.or_false, leadingBytesMatch]
      simp
    · rw [bomTest_pass_iff bomArg enc content [bomUTF32LE] h1 (by rw [h]; decide) (by rw [h]; rfl), h]
      rw [show strStarts "utf32le" "utf16" = false from rfl]
      rw [show bomSpecPass "utf32le" content = leadingBytesMatch content bomUTF32LE from rfl]
      simp only [hasBom, List.any_cons, List.any_nil, Bool.or_false, leadingBytesMatch]
      simp
  · intro bomArg content h1
    unfold bomTest
    rw [if_pos h1]
    rfl
  · intro bomArg enc content h1 h2
    unfold bomTest
    rw [if_pos h1]
    rw [show dictGet [("encoding", [enc])] "encoding" = some [enc] from rfl]
    dsimp only [List.head?]
    rw [if_pos h2]

/-- C7 (witness): a UTF-16LE BOM with `encoding = utf-16` passes; the
same bytes with `encoding = utf-32` fail; a missing or non-unicode
encoding assertion fails with a reason. -/
theorem c7_witness :
    bomTest "true" [0xFF, 0xFE, 0x61, 0x00] [("encoding", ["utf-16"])] = .ok none ∧
    bomTest "True" [0xEF, 0xBB, 0xBF] [("encoding", ["utf-32"])] ≠ .ok none ∧
    bomTest "true" [0xEF, 0xBB, 0xBF] [] = .ok (some .bomNeedsEncoding) ∧
    bomTest "true" [0xEF, 0xBB, 0xBF] [("encoding", ["ascii"])] = .ok (some .bomNeedsUnicode) :=
  ⟨(c7_bom_exact_variant.1 "true" "utf-16" [0xFF, 0xFE, 0x61, 0x00] (by decide) (by decide)).mpr
      (by decide),
   fun hc => by
     have := (c7_bom_exact_variant.1 "True" "utf-32" [0xEF, 0xBB, 0xBF] (by decide)
       (by decide)).mp hc
     exact absurd this (by decide),
   c7_bom_exact_variant.2.1 "true" [0xEF, 0xBB, 0xBF] (by decide),
   c7_bom_exact_variant.2.2 "true" "ascii" [0xEF, 0xBB, 0xBF] (by decide) (by decide)⟩

-- ### Claim C8

/-- The accumulator loop of `CheckParser.__call__` keeps exactly the
recognized fragments (in order) and warns once per unknown name. -/
theorem parseChecksAcc_spec (ms : List (String × String))
    (acc : List CheckInvocation × List CfgWarning) :
    parseChecksAcc acc ms =
      (acc.1 ++ (ms.filter (fun m => checkNames.contains m.1)).map mkInvocation,
       acc.2 ++ (ms.filter (fun m => !(checkNames.contains m.1))).map
         (fun m => CfgWarning.unknownTestFunction m.1)) := by
  induction ms generalizing acc with
  | nil => simp [parseChecksAcc]
  | cons m rest ih =>
    cases hm : checkNames.contains m.1 with
    | true =>
      simp only [parseChecksAcc, hm, if_true, ih, List.filter_cons, Bool.not_true,
        Bool.false_eq_true, if_false, if_true, List.map_cons, List.append_assoc,
        List.singleton_append]
    | false =>
      simp only [parseChecksAcc, hm, Bool.false_eq_true, if_false, ih, List.filter_cons,
        Bool.not_false, if_true, List.map_cons, List.append_assoc, List.singleton_append]

/-- C8: in a `checks:` payload every `name(args)` fragment with an
unrecognized name is skipped with one warning naming it, while every
recognized invocation of the same line is kept, in declaration order. -/
theorem c8_unknown_check_skipped :
    ∀ (line : String) (ms : List (String × String)),
      checkFindall line = ms → ms ≠ [] → pyStrip line ≠ "" →
      parseChecks line =
        ((ms.filter (fun m => checkNames.contains m.1)).map mkInvocation,
         (ms.filter (fun m => !(checkNames.contains m.1))).map
           (fun m => CfgWarning.unknownTestFunction m.1)) := by
  intro line ms hfind hne hstrip
  unfold parseChecks
  rw [if_neg hstrip, hfind]
  match ms, hne with
  | m :: rest, _ =>
    dsimp only
    rw [parseChecksAcc_spec]
    simp

/-- C8 (witness): the payload `encoding('utf-8') bogus() bom('true')`
yields exactly the two recognized invocations, in order, and exactly one
warning naming `bogus`. -/
theorem c8_witness :
    parseChecks "encoding('utf-8') bogus() bom('true')" =
      ([⟨"encoding", ["utf-8"]⟩, ⟨"bom", ["true"]⟩],
       [CfgWarning.unknownTestFunction "bogus"]) := by
  have h := c8_unknown_check_skipped "encoding('utf-8') bogus() bom('true')"
    [("encoding", "'utf-8'"), ("bogus", ""), ("bom", "'true'")]
    (by decide) (by decide) (by decide)
  rw [h]
  decide

-- ### Claims C2, C5 and C10

/-- Processing a concatenation of line lists processes the first part and
continues from its final state; an error short-circuits. -/
theorem procLines_append (st : RPState) (l1 l2 : List String) :
    procLines st (l1 ++ l2) =
      (match procLines st l1 with
       | .error e => .error e
       | .ok st' => procLines st' l2) := by
  induction l1 generalizing st with
  | nil => rfl
  | cons l ls ih =>
    simp only [List.cons_append, procLines]
    cases procLine st l with
    | error e => rfl
    | ok st' => exact ih st'

/-- Reading a concatenation of sources reads the first part and continues
from its accumulated table and warnings; an error short-circuits. -/
theorem rpfLoop_append (acc : List (String × List CheckInvocation) × List CfgWarning)
    (d1 d2 : List (List String)) :
    rpfLoop acc (d1 ++ d2) =
      (match rpfLoop acc d1 with
       | .error e => .error e
       | .ok acc' => rpfLoop acc' d2) := by
  induction d1 generalizing acc with
  | nil => rfl
  | cons d ds ih =>
    simp only [List.cons_append, rpfLoop]
    cases readPatterns d with
    | error e => rfl
    | ok st => exact ih _

/-- C2 (counterexample): a pattern line with the unrecognized prefix
`bogus:` makes `readPatterns` raise the parser's `KeyError` — the whole
read aborts, no warning is recorded and no later line is processed —
whereas the same source without that line succeeds. -/
theorem c2_counterexample :
    readPatterns ["bogus:x", "*"] = .error (.keyError "invalid syntax \"bogus:\"") ∧
    readPatterns ["*"] = .ok ⟨"relre", [], [("relre:*", [])], []⟩ := by
  refine ⟨by decide, by decide⟩

/-- C2 (amended): a pattern line whose leading alphanumeric-colon prefix
is neither a recognized alias nor a canonical keyword raises `KeyError`
inside `parseExpression`, which `readPatterns` does not catch for pattern
lines: the whole read aborts with that error, no warning is emitted for
the line, no entry is added and the remaining lines are not processed. -/
theorem c2_invalid_prefix_aborts_read :
    ∀ (pre : List String) (st : RPState) (line run rest : String) (tail : List String),
      procLines initRP pre = .ok st →
      cleanLine line = line → line ≠ "" →
      strStarts line "syntax:" = false → strStarts line "checks:" = false →
      leadingAlnumColon line = some (run, rest) →
      run ∉ synSpecs →
      readPatterns (pre ++ line :: tail) =
        .error (.keyError ("invalid syntax \"" ++ run ++ ":\"")) := by
  intro pre st line run rest tail hpre hclean hne hsyn hchk hlead hrun
  unfold readPatterns
  rw [procLines_append, hpre]
  have hproc : procLine st line = .error (.keyError ("invalid syntax \"" ++ run ++ ":\"")) := by
    unfold procLine
    simp only [hclean]
    rw [if_neg hne, if_neg (by simp [hsyn]), if_neg (by simp [hchk])]
    unfold parseExpression
    rw [hlead]
    dsimp only
    rw [if_pos hrun]
  simp only [procLines, hproc]

/-- C2 (witness): an earlier valid `checks:` line, then the bad prefix
line aborts the read even though a further pattern line follows. -/
theorem c2_witness :
    readPatterns ["checks: encoding(ascii)", "bogus:x", "*.h"] =
      .error (.keyError "invalid syntax \"bogus:\"") :=
  c2_invalid_prefix_aborts_read ["checks: encoding(ascii)"]
    ⟨"relre", [⟨"encoding", ["ascii"]⟩], [], []⟩ "bogus:x" "bogus" "x" ["*.h"]
    (by decide) (by decide) (by decide) (by decide) (by decide) (by decide) (by decide)

/-- C5 (counterexample): a `syntax: glob` line in an earlier source does
NOT carry over: the bare pattern `*.h` of the next source resolves with
the freshly reset default `relre`, not with `relglob`. -/
theorem c5_counterexample :
    readPatternFiles [["syntax: glob"], ["*.h"]] = .ok ([("relre:*.h", [])], []) ∧
    ("relre:*.h" : String) ≠ "relglob:*.h" := by
  refine ⟨by decide, by decide⟩

/-- C5 (amended): the ambient default syntax does not persist across
sources: `readPatternFiles` starts every source with a fresh
`readPatterns` state whose default is `relre`, so a bare pattern line of
a later source, read before that source sets a syntax of its own,
resolves with `relre` regardless of the sources before it. -/
theorem c5_default_syntax_reset_per_source :
    ∀ (datas : List (List String)) (t : List (String × List CheckInvocation))
      (w : List CfgWarning) (p : String),
      readPatternFiles datas = .ok (t, w) →
      cleanLine p = p → p ≠ "" →
      strStarts p "syntax:" = false → strStarts p "checks:" = false →
      leadingAlnumColon p = none →
      readPatternFiles (datas ++ [[p]]) = .ok (odInsert t ("relre:" ++ p) [], w) := by
  intro datas t w p hpre hclean hne hsyn hchk hlead
  unfold readPatternFiles at *
  rw [rpfLoop_append, hpre]
  have hproc : procLine initRP p = .ok ⟨"relre", [], [("relre:" ++ p, [])], []⟩ := by
    unfold procLine
    simp only [hclean]
    rw [if_neg hne, if_neg (by simp [hsyn]), if_neg (by simp [hchk])]
    unfold parseExpression
    rw [hlead]
    rfl
  have hrp : readPatterns [p] = .ok ⟨"relre", [], [("relre:" ++ p, [])], []⟩ := by
    unfold readPatterns procLines
    rw [hproc]
    rfl
  dsimp only
  simp only [rpfLoop, hrp]
  simp [odUpdate]

/-- C5 (witness): after a source consisting of `syntax: glob`, the bare
line `*.h` of the following source resolves to `relre:*.h`. -/
theorem c5_witness :
    readPatternFiles [["syntax: glob"], ["*.h"]] = .ok ([("relre:*.h", [])], []) := by
  have h := c5_default_syntax_reset_per_source [["syntax: glob"]] [] [] "*.h"
    (by decide) (by decide) (by decide) (by decide) (by decide) (by decide)
  exact h

/-- Re-assigning a key already present keeps the key list (and with it
every key's position) unchanged. -/
theorem odInsert_keys_of_mem {β : Type} (d : List (String × β)) (k : String) (v : β)
    (h : d.any (fun e => e.1 = k) = true) :
    (odInsert d k v).map Prod.fst = d.map Prod.fst := by
  unfold odInsert
  rw [if_pos h, List.map_map]
  apply List.map_congr_left
  intro e _
  by_cases he : e.1 = k
  · simp [he]
  · simp [he]

/-- Lookup after the in-place replacement pass of `odInsert` finds the
new value when the key is present. -/
theorem dictGet_map_replace {β : Type} (d : List (String × β)) (k : String) (v : β)
    (h : d.any (fun e => e.1 = k) = true) :
    dictGet (d.map (fun e => if e.1 = k then (k, v) else e)) k = some v := by
  induction d with
  | nil => simp at h
  | cons e rest ih =>
    obtain ⟨a, b⟩ := e
    simp only [List.map_cons]
    by_cases he : a = k
    · rw [if_pos (show (a, b).1 = k from he)]
      simp [dictGet]
    · rw [if_neg (show ¬ (a, b).1 = k from he)]
      simp only [dictGet]
      rw [if_neg he]
      apply ih
      simp only [List.any_cons, Bool.or_eq_true, decide_eq_true_eq] at h
      rcases h with h | h
      · exact absurd h he
      · exact h

/-- Lookup after appending a fresh key finds the appended value. -/
theorem dictGet_append_new {β : Type} (d : List (String × β)) (k : String) (v : β)
    (h : d.any (fun e => e.1 = k) = false) :
    dictGet (d ++ [(k, v)]) k = some v := by
  induction d with
  | nil => simp [dictGet]
  | cons e rest ih =>
    obtain ⟨a, b⟩ := e
    simp only [List.any_cons, Bool.or_eq_false_iff, decide_eq_false_iff_not] at h
    simp only [List.cons_append, dictGet]
    rw [if_neg h.1]
    exact ih h.2

/-- After `odInsert`, the lookup of the inserted key returns the new
value. -/
theorem dictGet_odInsert_self {β : Type} (d : List (String × β)) (k : String) (v : β) :
    dictGet (odInsert d k v) k = some v := by
  unfold odInsert
  cases h : d.any (fun e => e.1 = k) with
  | true =>
    rw [if_pos rfl]
    exact dictGet_map_replace d k v h
  | false =>
    rw [if_neg (by simp)]
    exact dictGet_append_new d k v h

/-- C10: within one read, re-declaring a pattern descriptor already in
the table replaces its check list with the currently pending one but
keeps the descriptor at its original position in the table's iteration
order (`result[key] = checks` on an `OrderedDict`, checkmeta.py line
246). -/
theorem c10_redeclare_keeps_position :
    ∀ (pre : List String) (st : RPState) (p key : String),
      procLines initRP pre = .ok st →
      cleanLine p = p → p ≠ "" →
      strStarts p "syntax:" = false → strStarts p "checks:" = false →
      parseExpression p st.syn = .ok key →
      st.table.any (fun e => e.1 = key) = true →
      procLines initRP (pre ++ [p]) =
        .ok ⟨st.syn, st.checks, odInsert st.table key st.checks, st.warns⟩ ∧
      (odInsert st.table key st.checks).map Prod.fst = st.table.map Prod.fst ∧
      dictGet (odInsert st.table key st.checks) key = some st.checks := by
  intro pre st p key hpre hclean hne hsyn hchk hpe hmem
  refine ⟨?_, odInsert_keys_of_mem st.table key st.checks hmem,
    dictGet_odInsert_self st.table key st.checks⟩
  rw [procLines_append, hpre]
  have hproc : procLine st p =
      .ok ⟨st.syn, st.checks, odInsert st.table key st.checks, st.warns⟩ := by
    unfold procLine
    simp only [hclean]
    rw [if_neg hne, if_neg (by simp [hsyn]), if_neg (by simp [hchk]), hpe]
  simp only [procLines, hproc]

/-- C10 (witness): re-declaring `*.h` after `*.c` updates its check list
from `encoding(ascii)` to `bom(true)` while the key order keeps `*.h`
first. -/
theorem c10_witness :
    procLines initRP ["checks: encoding(ascii)", "*.h", "*.c", "checks: bom(true)", "*.h"] =
      .ok ⟨"relre", [⟨"bom", ["true"]⟩],
           [("relre:*.h", [⟨"bom", ["true"]⟩]), ("relre:*.c", [⟨"encoding", ["ascii"]⟩])],
           []⟩ := by
  have h := c10_redeclare_keeps_position
    ["checks: encoding(ascii)", "*.h", "*.c", "checks: bom(true)"]
    ⟨"relre", [⟨"bom", ["true"]⟩],
     [("relre:*.h", [⟨"encoding", ["ascii"]⟩]), ("relre:*.c", [⟨"encoding", ["ascii"]⟩])], []⟩
    "*.h" "relre:*.h"
    (by decide) (by decide) (by decide) (by decide) (by decide) (by decide) (by decide)
  exact h.1
